import Mathlib

/-!
# ClearView — verification of the spec against `src/app.py`

The repository is a Streamlit PDF "minimizer" (`src/app.py`).  The modules
`modules/replacer.py`, `modules/extractor.py` and `modules/abbreviator.py` are
imported by `app.py` but are not part of the available sources, so the Text
Replacer and the PDF Rewriter's usage accounting are modelled from the spec
(§4.2, §4.3); every other definition is translated directly from `src/app.py`.

Text is modelled as `List Char`; page sequences as `List (List Char)`;
the abbreviation dictionary as an ordered association list (Python dicts
preserve insertion order); Python's float arithmetic on byte counts and word
counts as exact rationals `ℚ` (all quantities involved are integers, and the
spec's examples--40.00 percent, word count / 200--are exact).
-/

/-- A character that can be part of a word (used for whole-word boundaries).
Modelled from the spec: §4.2 "substitution must be on whole-word/phrase
boundaries (must not match inside a larger word)". -/
def isWordChar (c : Char) : Bool := c.isAlphanum

/-- Case-insensitive prefix stripping: if `p` matches the beginning of `t`
ignoring case, return the remainder of `t`.  Modelled from the spec: §4.2
"Matching should be case-insensitive for detection". -/
def stripPrefixCI : List Char → List Char → Option (List Char)
  | [], t => some t
  | _ :: _, [] => none
  | p :: ps, c :: cs => if p.toLower = c.toLower then stripPrefixCI ps cs else none

/-- The text immediately after a match must not continue a word.
Modelled from the spec: §4.2 whole-word/phrase boundary requirement. -/
def boundaryAfter : List Char → Bool
  | [] => true
  | c :: _ => !isWordChar c

/-- An abbreviation dictionary: ordered list of (fullForm, abbreviation)
pairs (spec §3, AbbreviationDictionary). -/
abbrev Dict := List (List Char × List Char)

/-- All dictionary entries matching at the current position: the fullForm is a
non-empty case-insensitive prefix of the text and the match ends at a word
boundary.  Modelled from the spec: §4.2 matching policy. -/
def candidatesAt (dict : Dict) (text : List Char) : List (List Char × List Char × List Char) :=
  dict.filterMap fun e =>
    match stripPrefixCI e.1 text with
    | none => none
    | some rest =>
      if e.1 ≠ [] ∧ boundaryAfter rest = true then some (e.1, e.2, rest) else none

/-- Pick the candidate with the longest fullForm; on equal lengths the earlier
dictionary entry wins.  Modelled from the spec: §4.2 "prefer the longest
matching fullForm at a given position" (longest-match-first). -/
def pickLongest : List (List Char × List Char × List Char) →
    Option (List Char × List Char × List Char)
  | [] => none
  | x :: xs =>
    match pickLongest xs with
    | none => some x
    | some y => if y.1.length > x.1.length then some y else some x

/-- The match chosen at the current position, if any.  `prev` records whether
the character before the current position is a word character: a match may not
start in the middle of a word (spec §4.2 whole-word boundary). -/
def findMatch (dict : Dict) (prev : Bool) (text : List Char) :
    Option (List Char × List Char × List Char) :=
  if prev then none else pickLongest (candidatesAt dict text)

/-- One left-to-right scan of a page: at each position substitute the chosen
match (emitting the abbreviation exactly as configured) and continue after it,
or copy one character.  Returns the rewritten text and the list of fullForms
matched, in order.  Fuel-indexed for structural recursion; `fuel ≥ text.length`
always holds at the call sites.  Modelled from the spec: §4.2 Text Replacer
transformation. -/
def replaceGo (dict : Dict) : Nat → Bool → List Char → List Char × List (List Char)
  | 0, _, t => (t, [])
  | _ + 1, _, [] => ([], [])
  | fuel + 1, prev, c :: cs =>
    match findMatch dict prev (c :: cs) with
    | some (f, a, r) =>
      let p := replaceGo dict fuel true r
      (a ++ p.1, f :: p.2)
    | none =>
      let p := replaceGo dict fuel (isWordChar c) cs
      (c :: p.1, p.2)

/-- Replace one page (page starts at a word boundary). -/
def replacePage (dict : Dict) (page : List Char) : List Char × List (List Char) :=
  replaceGo dict page.length false page

/-- The Text Replacer over a page sequence: each page is processed
independently; the matches of all pages are concatenated for document-level
accounting.  Modelled from the spec: §4.2 (the source module
`modules/replacer.py` is not available under `src/`). -/
def replace_with_abbreviations (pages : List (List Char)) (dict : Dict) :
    List (List Char) × List (List Char) :=
  (pages.map fun p => (replacePage dict p).1,
   (pages.map fun p => (replacePage dict p).2).flatten)

/-- Document-level usage record: for each dictionary entry actually
substituted at least once, (fullForm, abbreviation, count).  Modelled from the
spec: §3 UsageRecord. -/
def usageOf (dict : Dict) (ms : List (List Char)) : List (List Char × List Char × Nat) :=
  dict.filterMap fun e =>
    if ms.count e.1 ≠ 0 then some (e.1, e.2, ms.count e.1) else none

/-- Whether the left-to-right scan would find any match in the text
(same scanning discipline as `replaceGo`, but only detection). -/
def hasMatchScan (dict : Dict) : Bool → List Char → Bool
  | _, [] => false
  | prev, c :: cs =>
    match findMatch dict prev (c :: cs) with
    | some _ => true
    | none => hasMatchScan dict (isWordChar c) cs

/-- Whether every abbreviation value of the dictionary avoids the fullForm
keys (the spec §4.2/§8 idempotence proviso, as a decidable check). -/
def abbrsAvoidKeys (dict : Dict) : Bool :=
  (dict.map Prod.snd).all fun a => !(decide (a ∈ dict.map Prod.fst))

/-! ## Definitions translated from `src/app.py` -/

/-- `src/app.py` lines 130-135: percent reduction of the output size, guarded
against a zero original size (`... if original_size else 0`). -/
def percent_reduction (original_size minimized_size : ℕ) : ℚ :=
  if original_size ≠ 0 then
    ((original_size : ℚ) - minimized_size) / original_size * 100
  else 0

/-- Python's `str.split()` word count: number of maximal runs of
non-whitespace characters (`len(p.split())`, `src/app.py` lines 190-191).
`inWord` records whether the previous character was part of a word. -/
def wordCountAux : Bool → List Char → Nat
  | _, [] => 0
  | inWord, c :: cs =>
    if c.isWhitespace then wordCountAux false cs
    else (if inWord then 0 else 1) + wordCountAux true cs

/-- Number of whitespace-separated words of a page (Python `len(p.split())`). -/
def wordCount (s : List Char) : Nat := wordCountAux false s

/-- `src/app.py` line 190: total word count of the extracted pages. -/
def words_original (pages : List (List Char)) : Nat :=
  (pages.map fun p => wordCount p).sum

/-- `src/app.py` line 191: total word count of the replaced pages. -/
def words_minimized (replaced : List (List Char)) : Nat :=
  (replaced.map fun p => wordCount p).sum

/-- `src/app.py` line 194: original reading time in minutes. -/
def original_time (pages : List (List Char)) : ℚ := (words_original pages : ℚ) / 200

/-- `src/app.py` line 195: minimized reading time in minutes. -/
def minimized_time (replaced : List (List Char)) : ℚ := (words_minimized replaced : ℚ) / 200

/-- `src/app.py` lines 196-199: reading time saved in minutes. -/
def time_saved (pages replaced : List (List Char)) : ℚ :=
  ((words_original pages : ℚ) - (words_minimized replaced : ℚ)) / 200

/-- One entry of the usage record `used_abbr` returned by `abbreviate_pdf`
(`src/app.py` line 122): Python dict `fullForm -> {"abbr": ..., "count": ...}`,
modelled as an insertion-ordered list of entries. -/
structure UsageEntry where
  full : List Char
  abbr : List Char
  count : Nat
deriving DecidableEq

/-- The (fullForm, abbreviation, count) triple of a usage entry. -/
def entryTriple (e : UsageEntry) : List Char × List Char × Nat := (e.full, e.abbr, e.count)

/-- `src/app.py` lines 155-158: total replacements metric,
`sum(v["count"] for v in used_abbr.values())`. -/
def total_replacements (u : List UsageEntry) : Nat := (u.map fun e => e.count).sum

/-- The comparison Python's stable `sorted(..., key=count, reverse=True)`
realizes: an earlier element stays before a later one unless the later one has
a strictly larger count; equivalently insertion works under `b.count ≤ a.count`. -/
def countDescOrder (a b : UsageEntry) : Prop := b.count ≤ a.count

instance : DecidableRel countDescOrder := fun a b => Nat.decLe b.count a.count

/-- `src/app.py` lines 173-177: the top-abbreviations chart data,
`sorted(used_abbr.items(), key=lambda x: x[1]["count"], reverse=True)[:10]`.
Python's sort is stable, so entries with equal counts keep their original
(insertion) order; `List.insertionSort countDescOrder` places an earlier
element before a later one exactly when the later count is not larger,
matching that behaviour. -/
def sorted_abbr (u : List UsageEntry) : List UsageEntry :=
  (List.insertionSort countDescOrder u).take 10

/-- `src/app.py` lines 206-215: the "Replaced Abbreviations" table rows, built
by iterating `used_abbr.items()` directly — in insertion order, unsorted. -/
def table_data (u : List UsageEntry) : List (List Char × List Char × Nat) :=
  u.map entryTriple

/-- The ordering the spec claims for presented usage triples: descending
count, ties broken by fullForm ascending (spec §8 "Reference-page data").
This definition follows the SPEC's words, for comparison with the code. -/
def specUsageOrder (a b : UsageEntry) : Prop :=
  b.count < a.count ∨ (a.count = b.count ∧ a.full ≤ b.full)

instance : DecidableRel specUsageOrder := fun a b =>
  inferInstanceAs (Decidable (b.count < a.count ∨ (a.count = b.count ∧ a.full ≤ b.full)))

/-- Modelled from the spec: the reference pages appended by `abbreviate_pdf`
(`modules/abbreviator.py`, not under `src/`) list the usage triples sorted by
descending count, ties by fullForm ascending (spec §4.3, §8). -/
def referencePageTriples (u : List UsageEntry) : List (List Char × List Char × Nat) :=
  (List.insertionSort specUsageOrder u).map entryTriple

/-! ### Output path, download metadata and file lifecycle (`src/app.py`) -/

/-- Whether `p` occurs at the beginning of the second list (substring test at
the current position, as Python's `str.replace` scan performs). -/
def listStartsWith : List Char → List Char → Bool
  | [], _ => true
  | _ :: _, [] => false
  | p :: ps, c :: cs => p == c && listStartsWith ps cs

/-- Python's `str.replace(old, new)`: replace every non-overlapping occurrence
of `old`, scanning left to right (`src/app.py` line 99 uses it with
`old = ".pdf"`).  Fuel-indexed; `fuel ≥ s.length` at the call site, and every
step consumes at least one character when `old ≠ []`. -/
def pyReplaceGo (old new : List Char) : Nat → List Char → List Char
  | _, [] => []
  | 0, s => s
  | fuel + 1, c :: cs =>
    if listStartsWith old (c :: cs) = true ∧ old ≠ [] then
      new ++ pyReplaceGo old new fuel ((c :: cs).drop old.length)
    else c :: pyReplaceGo old new fuel cs

/-- Python `s.replace(old, new)`. -/
def pyReplace (s old new : List Char) : List Char := pyReplaceGo old new s.length s

/-- `src/app.py` line 99: `output_path = input_path.replace(".pdf", "_minimized.pdf")`. -/
def output_path (input_path : List Char) : List Char :=
  pyReplace input_path ".pdf".toList "_minimized.pdf".toList

/-- `src/app.py` line 224: name offered by the download button. -/
def download_file_name : List Char := "minimized_output.pdf".toList

/-- `src/app.py` line 225: MIME type of the download. -/
def download_mime : List Char := "application/pdf".toList

/-- Files created on disk during one document-processing run
(`src/app.py` lines 95-99 and 122): the temporary input file, written with
`NamedTemporaryFile(delete=False)`, and the output file written by
`abbreviate_pdf`. -/
def filesCreatedByRun (input_path : List Char) : List (List Char) :=
  [input_path, output_path input_path]

/-- Files the run removes before it ends: `src/app.py` contains no
`os.remove`/`os.unlink`/`delete=True` for either path, so none. -/
def filesRemovedByRun (_input_path : List Char) : List (List Char) := []

/-- Files still on disk when the run ends. -/
def filesAfterRun (input_path : List Char) : List (List Char) :=
  (filesCreatedByRun input_path).filter fun p => ¬ p ∈ filesRemovedByRun input_path

/-! ### The dashboard report (`src/app.py` lines 130-226) -/

/-- Everything the dashboard derives and renders after the two replacement
paths have run (`src/app.py` lines 130-215).  The source renders these
unconditionally; it has no field or branch comparing the Text Replacer's
usage with the PDF Rewriter's usage. -/
structure Report where
  percentReduction : ℚ
  totalReplacements : Nat
  topAbbr : List UsageEntry
  usageTable : List (List Char × List Char × Nat)
  originalTime : ℚ
  minimizedTime : ℚ
  savedTime : ℚ
deriving DecidableEq

/-- The dashboard computation of `src/app.py` lines 130-215: metrics from the
file sizes, usage statistics from `used_abbr` (the PDF Rewriter's record `u`)
alone, reading times from the extracted and replaced page texts. -/
def buildReport (pages replaced : List (List Char)) (u : List UsageEntry)
    (original_size minimized_size : ℕ) : Report :=
  { percentReduction := percent_reduction original_size minimized_size
    totalReplacements := total_replacements u
    topAbbr := sorted_abbr u
    usageTable := table_data u
    originalTime := original_time pages
    minimizedTime := minimized_time replaced
    savedTime := time_saved pages replaced }

/-- The full data path of a run (`src/app.py` lines 101-215): the replaced
preview pages come from the Text Replacer; the usage record `u` comes from the
PDF Rewriter (`abbreviate_pdf`, whose code is not under `src/`, so its result
enters as a parameter); the report is built from them with no comparison of
the two usage computations. -/
def appRun (pages : List (List Char)) (dict : Dict) (u : List UsageEntry)
    (original_size minimized_size : ℕ) : Report :=
  buildReport pages (replace_with_abbreviations pages dict).1 u original_size minimized_size

/-! ## Concrete inputs used by the spec's examples and the counterexamples -/

/-- The spec §8 overlapping dictionary. -/
def D1 : Dict := [("data structure".toList, "DS".toList), ("data".toList, "D".toList)]

/-- The spec §8 page for the longest-match example. -/
def P1 : List (List Char) := ["the data structure is large".toList]

/-- The spec §8 whole-word dictionary. -/
def Dcat : Dict := [("cat".toList, "C".toList)]

/-- A dictionary satisfying the idempotence proviso (no abbreviation is a
fullForm key) whose first pass can nevertheless manufacture new matches. -/
def D3 : Dict := [("a b".toList, "X".toList), ("c".toList, "a".toList)]

/-- A page on which `D3` shows the idempotence failure. -/
def P3 : List (List Char) := ["c b".toList]

/-- A usage record whose insertion order differs from descending-count order. -/
def U5 : List UsageEntry :=
  [⟨"b".toList, "B".toList, 1⟩, ⟨"a".toList, "A".toList, 2⟩]

/-! ## Helper lemmas -/

/-- If the scan finds no match in `t`, the replacement pass copies `t`
verbatim and records nothing, for any fuel. -/
lemma replaceGo_of_no_match (dict : Dict) :
    ∀ (t : List Char) (fuel : Nat) (prev : Bool),
      hasMatchScan dict prev t = false → replaceGo dict fuel prev t = (t, []) := by
  intro t
  induction t with
  | nil => intro fuel prev _; cases fuel <;> rfl
  | cons c cs ih =>
    intro fuel prev h
    cases hf : findMatch dict prev (c :: cs) with
    | some x =>
      exfalso
      have : hasMatchScan dict prev (c :: cs) = true := by
        unfold hasMatchScan; rw [hf]
      rw [this] at h; exact Bool.noConfusion h
    | none =>
      have h' : hasMatchScan dict (isWordChar c) cs = false := by
        unfold hasMatchScan at h; rw [hf] at h; exact h
      cases fuel with
      | zero => rfl
      | succ f => simp [replaceGo, hf, ih f (isWordChar c) h']

/-- `pyReplaceGo` on the empty string. -/
lemma pyReplaceGo_nil (old new : List Char) (fuel : Nat) :
    pyReplaceGo old new fuel [] = [] := by
  cases fuel <;> rfl

/-- A position where `old` does not occur is copied unchanged. -/
lemma pyReplaceGo_skip (old new : List Char) (c : Char) (cs : List Char) (fuel : Nat)
    (h : listStartsWith old (c :: cs) = false) :
    pyReplaceGo old new (fuel + 1) (c :: cs) = c :: pyReplaceGo old new fuel cs := by
  rw [pyReplaceGo]; simp [h]

/-- A position where `old` occurs is replaced and the scan continues after it. -/
lemma pyReplaceGo_match (old new : List Char) (c : Char) (cs : List Char) (fuel : Nat)
    (h : listStartsWith old (c :: cs) = true) (hne : old ≠ []) :
    pyReplaceGo old new (fuel + 1) (c :: cs) =
      new ++ pyReplaceGo old new fuel ((c :: cs).drop old.length) := by
  rw [pyReplaceGo]; simp [h, hne]

/-- A pattern never matches at a position holding a different first character. -/
lemma listStartsWith_cons_ne (p : Char) (ps : List Char) (c : Char) (cs : List Char)
    (h : p ≠ c) : listStartsWith (p :: ps) (c :: cs) = false := by
  simp [listStartsWith, h]

/-- For a stem containing no dot, `str.replace(".pdf", "_minimized.pdf")`
inserts the marker exactly before the final extension. -/
lemma pyReplaceGo_no_dot (stem : List Char) :
    ∀ fuel, stem.length + 4 ≤ fuel → '.' ∉ stem →
      pyReplaceGo ".pdf".toList "_minimized.pdf".toList fuel (stem ++ ".pdf".toList) =
        stem ++ "_minimized.pdf".toList := by
  induction stem with
  | nil =>
    intro fuel hf _
    cases fuel with
    | zero => omega
    | succ f =>
      simp only [List.nil_append]
      have e : ".pdf".toList = '.' :: ['p', 'd', 'f'] := rfl
      rw [e, pyReplaceGo_match _ _ _ _ f (by decide) (by decide)]
      rw [show (('.' :: ['p', 'd', 'f']).drop ('.' :: ['p', 'd', 'f']).length) = []
        from rfl]
      rw [pyReplaceGo_nil]
      rfl
  | cons d ds ih =>
    intro fuel hf h
    have hd : '.' ≠ d := fun he => h (by rw [← he]; exact List.mem_cons_self _ _)
    have hds : '.' ∉ ds := fun he => h (List.mem_cons_of_mem _ he)
    cases fuel with
    | zero => simp at hf
    | succ f =>
      have hfalse : listStartsWith ".pdf".toList (d :: (ds ++ ".pdf".toList)) = false := by
        have e : ".pdf".toList = '.' :: ['p', 'd', 'f'] := rfl
        rw [e]
        exact listStartsWith_cons_ne _ _ _ _ hd
      have hskip := pyReplaceGo_skip ".pdf".toList "_minimized.pdf".toList d
        (ds ++ ".pdf".toList) f hfalse
      simp only [List.cons_append, hskip]
      rw [ih f (by simp only [List.length_cons] at hf; omega) hds]

/-! ## Claim theorems -/

/-- C1: with D = {"data structure": "DS", "data": "D"} and input
"the data structure is large", the Text Replacer returns "the DS is large"
with a usage mapping holding exactly the entry ("data structure", 1); "data"
is neither substituted nor counted (longest-match-first). -/
theorem longest_match_example :
    replace_with_abbreviations P1 D1 =
      (["the DS is large".toList], ["data structure".toList]) ∧
    usageOf D1 (replace_with_abbreviations P1 D1).2 =
      [("data structure".toList, "DS".toList, 1)] := by
  decide

/-- C2: with D = {"cat": "C"}, the input "category" is returned unchanged
with empty usage, while "the cat sat" becomes "the C sat" with "cat" counted
once (whole-word boundaries). -/
theorem whole_word_boundary_example :
    replace_with_abbreviations ["category".toList] Dcat = (["category".toList], []) ∧
    usageOf Dcat (replace_with_abbreviations ["category".toList] Dcat).2 = [] ∧
    replace_with_abbreviations ["the cat sat".toList] Dcat =
      (["the C sat".toList], ["cat".toList]) ∧
    usageOf Dcat (replace_with_abbreviations ["the cat sat".toList] Dcat).2 =
      [("cat".toList, "C".toList, 1)] := by
  decide

/-- C3 counterexample: the dictionary D3 = {"a b": "X", "c": "a"} satisfies the
claim's proviso (no abbreviation of D3 is a fullForm key of D3), yet on the
page "c b" the first pass yields "a b", and a second pass substitutes again
("a b" -> "X"), so the second run's page texts change and its usage mapping is
non-empty — refuting idempotence as claimed. -/
theorem idempotence_proviso_insufficient :
    abbrsAvoidKeys D3 = true ∧
    (replace_with_abbreviations P3 D3).1 = ["a b".toList] ∧
    replace_with_abbreviations (replace_with_abbreviations P3 D3).1 D3 =
      (["X".toList], ["a b".toList]) ∧
    usageOf D3 (replace_with_abbreviations (replace_with_abbreviations P3 D3).1 D3).2 =
      [("a b".toList, "X".toList, 1)] := by
  decide

/-- C3 (amended): the second run performs zero substitutions whenever the
first run's output pages admit no further match under the replacer's scan (a
condition the claim's proviso alone does not guarantee): the page texts are
returned unchanged and the second run's usage mapping is empty. -/
theorem replacer_second_pass_no_matches (dict : Dict) (pages : List (List Char))
    (h : ∀ pg ∈ (replace_with_abbreviations pages dict).1,
      hasMatchScan dict false pg = false) :
    replace_with_abbreviations (replace_with_abbreviations pages dict).1 dict =
      ((replace_with_abbreviations pages dict).1, []) ∧
    usageOf dict
      (replace_with_abbreviations (replace_with_abbreviations pages dict).1 dict).2 = [] := by
  set out := (replace_with_abbreviations pages dict).1 with hout
  have hpage : ∀ pg ∈ out, replacePage dict pg = (pg, []) := fun pg hp =>
    replaceGo_of_no_match dict pg pg.length false (h pg hp)
  have hfst : (out.map fun p => (replacePage dict p).1) = out := by
    have h1 : (out.map fun p => (replacePage dict p).1) = out.map id :=
      List.map_congr_left fun p hp => by rw [hpage p hp]; rfl
    rw [h1, List.map_id]
  have hsnd : (out.map fun p => (replacePage dict p).2) =
      out.map fun _ => ([] : List (List Char)) :=
    List.map_congr_left fun p hp => by rw [hpage p hp]
  have hmain : replace_with_abbreviations out dict = (out, []) := by
    show (out.map fun p => (replacePage dict p).1,
          (out.map fun p => (replacePage dict p).2).flatten) = (out, [])
    rw [hfst, hsnd]
    simp
  exact ⟨hmain, by rw [hmain]; simp [usageOf]⟩

/-- C3 witness: on the spec's own example the no-further-match condition holds
and the amended idempotence theorem applies. -/
theorem replacer_second_pass_no_matches_witness :
    replace_with_abbreviations (replace_with_abbreviations P1 D1).1 D1 =
      ((replace_with_abbreviations P1 D1).1, []) ∧
    usageOf D1
      (replace_with_abbreviations (replace_with_abbreviations P1 D1).1 D1).2 = [] :=
  replacer_second_pass_no_matches D1 P1 (by decide)

/-- C4: the percent-reduction metric equals
(original − minimized) / original × 100 for non-zero original size (1000 and
600 give exactly 40), and equals 0 when the original size is 0; the guard in
`src/app.py` lines 132-135 makes the computation total, so no division by zero
can occur. -/
theorem percent_reduction_formula (o m : ℕ) :
    (o ≠ 0 → percent_reduction o m = ((o : ℚ) - m) / o * 100) ∧
    percent_reduction 0 m = 0 ∧
    percent_reduction 1000 600 = 40 := by
  refine ⟨fun h => by simp [percent_reduction, h], by simp [percent_reduction], ?_⟩
  norm_num [percent_reduction]

/-- C4 witness: the formula at (1000, 600) and the zero guard at (0, 600). -/
theorem percent_reduction_formula_witness :
    percent_reduction 1000 600 = ((1000 : ℚ) - 600) / 1000 * 100 ∧
    percent_reduction 0 600 = 0 :=
  ⟨(percent_reduction_formula 1000 600).1 (by norm_num),
   (percent_reduction_formula 0 600).2.1⟩

instance : IsTotal UsageEntry countDescOrder :=
  ⟨fun a b => Nat.le_total b.count a.count⟩

instance : IsTrans UsageEntry countDescOrder :=
  ⟨fun _ _ _ h₁ h₂ => Nat.le_trans h₂ h₁⟩

instance : IsTotal UsageEntry specUsageOrder := by
  constructor
  intro a b
  rcases Nat.lt_trichotomy a.count b.count with h | h | h
  · exact Or.inr (Or.inl h)
  · rcases le_total a.full b.full with hf | hf
    · exact Or.inl (Or.inr ⟨h, hf⟩)
    · exact Or.inr (Or.inr ⟨h.symm, hf⟩)
  · exact Or.inl (Or.inl h)

instance : IsTrans UsageEntry specUsageOrder := by
  constructor
  intro a b c h₁ h₂
  rcases h₁ with h₁ | ⟨h₁e, h₁f⟩ <;> rcases h₂ with h₂ | ⟨h₂e, h₂f⟩
  · exact Or.inl (Nat.lt_trans h₂ h₁)
  · exact Or.inl (by omega)
  · exact Or.inl (by omega)
  · exact Or.inr ⟨by omega, le_trans h₁f h₂f⟩

/-- C5 counterexample: for the usage record U5 = [("b","B",1), ("a","A",2)]
(insertion order), the reporting layer's table (`table_data`, `src/app.py`
lines 206-215) presents the rows in insertion order, not in the
descending-count/fullForm order the claim requires; and for a count tie the
top-abbreviations chart (`sorted_abbr`, lines 173-177, a stable sort) keeps
insertion order rather than fullForm-ascending order. -/
theorem usage_presentation_order_cex :
    table_data U5 ≠ (List.insertionSort specUsageOrder U5).map entryTriple ∧
    (List.insertionSort specUsageOrder U5).map entryTriple =
      [("a".toList, "A".toList, 2), ("b".toList, "B".toList, 1)] ∧
    table_data U5 = [("b".toList, "B".toList, 1), ("a".toList, "A".toList, 2)] ∧
    sorted_abbr [⟨"b".toList, "B".toList, 2⟩, ⟨"a".toList, "A".toList, 2⟩] ≠
      List.insertionSort specUsageOrder
        [⟨"b".toList, "B".toList, 2⟩, ⟨"a".toList, "A".toList, 2⟩] := by
  decide

/-- C5 (amended): the triples presented are exactly those of the returned
UsageRecord, but only the spec-modelled reference pages follow the claimed
descending-count order with fullForm tie-break; the reporting layer's table
lists the UsageRecord's triples in the UsageRecord's own (insertion) order,
and the top-abbreviations chart stably sorts by descending count with ties
kept in insertion order (for records of at most ten entries both chart and
reference pages are permutations of the full UsageRecord). -/
theorem usage_presentation_contract (u : List UsageEntry) (h : u.length ≤ 10) :
    table_data u = u.map entryTriple ∧
    (sorted_abbr u).Perm u ∧
    List.Sorted countDescOrder (sorted_abbr u) ∧
    (referencePageTriples u).Perm (table_data u) ∧
    List.Sorted specUsageOrder (List.insertionSort specUsageOrder u) := by
  have hlen : (List.insertionSort countDescOrder u).length ≤ 10 := by
    rw [List.length_insertionSort]; exact h
  have htake : sorted_abbr u = List.insertionSort countDescOrder u := by
    unfold sorted_abbr
    exact List.take_of_length_le hlen
  refine ⟨rfl, ?_, ?_, ?_, ?_⟩
  · rw [htake]; exact List.perm_insertionSort countDescOrder u
  · rw [htake]; exact List.sorted_insertionSort countDescOrder u
  · exact (List.perm_insertionSort specUsageOrder u).map entryTriple
  · exact List.sorted_insertionSort specUsageOrder u

/-- C5 witness: the presentation contract evaluated at the two-entry record U5. -/
theorem usage_presentation_contract_witness :
    table_data U5 = U5.map entryTriple ∧
    (sorted_abbr U5).Perm U5 ∧
    List.Sorted countDescOrder (sorted_abbr U5) ∧
    (referencePageTriples U5).Perm (table_data U5) ∧
    List.Sorted specUsageOrder (List.insertionSort specUsageOrder U5) :=
  usage_presentation_contract U5 (by decide)

/-- C6: at a run where the Text Replacer's counts over the extracted pages
(one substitution of "data structure") diverge from the PDF Rewriter's record
(empty), the dashboard of `src/app.py` lines 130-215 still renders normally,
with every usage statistic taken from the rewriter's record alone: the
`Report` type, translated from the source, has no warning or comparison
output, so the divergence is neither detected nor reported — the code
violates the claim. -/
theorem divergence_not_reported :
    usageOf D1 (replace_with_abbreviations P1 D1).2 =
      [("data structure".toList, "DS".toList, 1)] ∧
    (appRun P1 D1 [] 1000 900).totalReplacements = 0 ∧
    (appRun P1 D1 [] 1000 900).usageTable = [] ∧
    (appRun P1 D1 [] 1000 900).topAbbr = [] ∧
    (appRun P1 D1 [] 1000 900).percentReduction = 10 := by
  refine ⟨by decide, by decide, by decide, by decide, ?_⟩
  show percent_reduction 1000 900 = 10
  norm_num [percent_reduction]

/-- C7: the temporary input file created for the uploaded PDF
(`NamedTemporaryFile(delete=False)`, `src/app.py` lines 95-97) is still on
disk when the run ends: the source removes no file on any path, so the temp
file outlives the run — the code violates the claim. -/
theorem temp_input_file_survives_run (input_path : List Char) :
    input_path ∈ filesAfterRun input_path ∧ filesRemovedByRun input_path = [] := by
  constructor
  · simp [filesAfterRun, filesCreatedByRun, filesRemovedByRun]
  · rfl

/-- C8 counterexample: the input path "a.pdfb.pdf" ends in ".pdf", but
`input_path.replace(".pdf", "_minimized.pdf")` (`src/app.py` line 99) rewrites
every occurrence of ".pdf", not only the final extension, so the marker is
inserted in two places instead of one. -/
theorem output_path_double_extension_cex :
    output_path "a.pdfb.pdf".toList = "a_minimized.pdfb_minimized.pdf".toList ∧
    output_path "a.pdfb.pdf".toList ≠ "a.pdfb_minimized.pdf".toList := by
  decide

/-- C8 (amended): the output path is the input path with every occurrence of
".pdf" replaced by "_minimized.pdf"; for an input path whose stem contains no
dot — as the `tempfile` names the app actually creates — this inserts the
"_minimized" marker exactly before the ".pdf" extension, and the file is
offered for download as minimized_output.pdf with MIME type application/pdf. -/
theorem output_path_marker (stem : List Char) (h : '.' ∉ stem) :
    output_path (stem ++ ".pdf".toList) = stem ++ "_minimized.pdf".toList ∧
    download_file_name = "minimized_output.pdf".toList ∧
    download_mime = "application/pdf".toList := by
  refine ⟨?_, rfl, rfl⟩
  unfold output_path pyReplace
  have h4 : ".pdf".toList.length = 4 := rfl
  have hlen : (stem ++ ".pdf".toList).length = stem.length + 4 := by
    rw [List.length_append, h4]
  rw [hlen]
  exact pyReplaceGo_no_dot stem (stem.length + 4) (by omega) h

/-- C8 witness: the marker insertion on a dot-free temp-file stem. -/
theorem output_path_marker_witness :
    output_path ("/tmp/tmpinput".toList ++ ".pdf".toList) =
      "/tmp/tmpinput".toList ++ "_minimized.pdf".toList ∧
    download_file_name = "minimized_output.pdf".toList ∧
    download_mime = "application/pdf".toList :=
  output_path_marker "/tmp/tmpinput".toList (by decide)

/-- C9: the reported reading-time estimates are the whitespace-separated word
counts divided by 200 words per minute — original time over the extracted
pages, minimized time over the replaced pages — and the time saved is their
difference over 200, i.e. exactly the difference of the two reported times. -/
theorem reading_time_formulas (pages : List (List Char)) (dict : Dict)
    (u : List UsageEntry) (osz msz : ℕ) :
    (appRun pages dict u osz msz).originalTime = (words_original pages : ℚ) / 200 ∧
    (appRun pages dict u osz msz).minimizedTime =
      (words_minimized (replace_with_abbreviations pages dict).1 : ℚ) / 200 ∧
    (appRun pages dict u osz msz).savedTime =
      (appRun pages dict u osz msz).originalTime -
        (appRun pages dict u osz msz).minimizedTime := by
  refine ⟨rfl, rfl, ?_⟩
  show time_saved pages (replace_with_abbreviations pages dict).1 =
    original_time pages - minimized_time (replace_with_abbreviations pages dict).1
  unfold time_saved original_time minimized_time
  rw [sub_div]

/-- C10: the percent-reduction metric is not clamped below at zero: whenever
the minimized file is larger than a non-empty original, the reported value is
strictly negative and equals the exact formula with no lower bound. -/
theorem percent_reduction_unclamped (o m : ℕ) (h₁ : 0 < o) (h₂ : o < m) :
    percent_reduction o m < 0 ∧
    percent_reduction o m = ((o : ℚ) - m) / o * 100 := by
  have ho : (0 : ℚ) < o := by exact_mod_cast h₁
  have hm : (o : ℚ) < m := by exact_mod_cast h₂
  have hne : o ≠ 0 := Nat.pos_iff_ne_zero.mp h₁
  have hval : percent_reduction o m = ((o : ℚ) - m) / o * 100 := by
    simp [percent_reduction, hne]
  refine ⟨?_, hval⟩
  rw [hval]
  apply mul_neg_of_neg_of_pos
  · apply div_neg_of_neg_of_pos
    · linarith
    · exact ho
  · norm_num

/-- C10 witness: a 10-byte original growing to 20 bytes reports −100 percent. -/
theorem percent_reduction_unclamped_witness :
    percent_reduction 10 20 < 0 ∧
    percent_reduction 10 20 = ((10 : ℚ) - 20) / 10 * 100 :=
  percent_reduction_unclamped 10 20 (by norm_num) (by norm_num)

